import Mathlib

/-!
Verification of `scripts/icons/process_icons.py` from the gopher-automate
repository: a shallow embedding of the SVG icon pipeline (pad synthesis,
silhouette recolor, app-icon recolor, canvas squaring, rasterize/composite
subprocess handling and temp-file cleanup) together with proofs of the
specified properties.
-/

namespace ProcessIcons

/-- An in-memory SVG element, mirroring `xml.etree.ElementTree.Element`:
a tag, an ordered attribute dictionary (keys unique, insertion order kept,
as in a Python dict) and an ordered list of children. -/
inductive Element where
  | mk (tag : String) (attrib : List (String × String)) (children : List Element)
deriving Repr

def Element.tag : Element → String
  | .mk t _ _ => t

def Element.attrib : Element → List (String × String)
  | .mk _ a _ => a

def Element.children : Element → List Element
  | .mk _ _ cs => cs

/-- Python `attrs[k]` / `k in attrs` lookup: the value at key `k`, reading
the first (for a dict: only) binding. -/
def getAttr : List (String × String) → String → Option String
  | [], _ => none
  | p :: rest, k => if p.1 == k then some p.2 else getAttr rest k

/-- Python `elem.set(k, v)` / `attrs[k] = v` on an ordered dict: overwrite
the binding in place if the key is present, else append a new binding. -/
def setAttr : List (String × String) → String → String → List (String × String)
  | [], k, v => [(k, v)]
  | p :: rest, k, v => if p.1 == k then (k, v) :: rest else p :: setAttr rest k v

theorem getAttr_setAttr_self (a : List (String × String)) (k v : String) :
    getAttr (setAttr a k v) k = some v := by
  induction a with
  | nil => simp [setAttr, getAttr]
  | cons p rest ih =>
    by_cases h : p.1 = k
    · simp [setAttr, getAttr, h]
    · simp [setAttr, getAttr, h, ih]

theorem getAttr_setAttr_ne (a : List (String × String)) (k v k' : String)
    (hne : k' ≠ k) : getAttr (setAttr a k v) k' = getAttr a k' := by
  induction a with
  | nil => simp [setAttr, getAttr, Ne.symm hne]
  | cons p rest ih =>
    by_cases h : p.1 = k
    · have hk' : ¬ p.1 = k' := fun hc => hne (hc ▸ h ▸ rfl)
      simp [setAttr, getAttr, h, hk', Ne.symm hne]
    · by_cases h' : p.1 = k'
      · simp [setAttr, getAttr, h, h', hne]
      · simp [setAttr, getAttr, h, h', ih]

mutual

/-- All nodes of an element: the element itself and, recursively, the nodes
of every child (the set visited by Python `elem.iter()`). -/
def Element.allNodes : Element → List Element
  | .mk t a cs => .mk t a cs :: nodesOfList cs

def nodesOfList : List Element → List Element
  | [] => []
  | c :: cs => c.allNodes ++ nodesOfList cs

end

mutual

/-- Apply an attribute rewrite to every node of an element tree. -/
def mapAttrs (f : List (String × String) → List (String × String)) :
    Element → Element
  | .mk t a cs => .mk t (f a) (mapAttrsList f cs)

def mapAttrsList (f : List (String × String) → List (String × String)) :
    List Element → List Element
  | [] => []
  | c :: cs => mapAttrs f c :: mapAttrsList f cs

end

theorem attrib_mapAttrs (f : List (String × String) → List (String × String))
    (e : Element) : (mapAttrs f e).attrib = f e.attrib := by
  cases e; simp [mapAttrs, Element.attrib]

mutual

theorem allNodes_mapAttrs (f : List (String × String) → List (String × String))
    (e : Element) :
    (mapAttrs f e).allNodes = e.allNodes.map (mapAttrs f) := by
  cases e with
  | mk t a cs =>
    simp [mapAttrs, Element.allNodes, nodesOfList_mapAttrsList f cs]

theorem nodesOfList_mapAttrsList
    (f : List (String × String) → List (String × String)) (cs : List Element) :
    nodesOfList (mapAttrsList f cs) = (nodesOfList cs).map (mapAttrs f) := by
  cases cs with
  | nil => simp [mapAttrsList, nodesOfList]
  | cons c rest =>
    simp [mapAttrsList, nodesOfList, allNodes_mapAttrs f c,
      nodesOfList_mapAttrsList f rest]

end

theorem mem_nodesOfList_mapAttrsList
    (f : List (String × String) → List (String × String))
    (cs : List Element) (d : Element) (hd : d ∈ nodesOfList cs) :
    mapAttrs f d ∈ nodesOfList (mapAttrsList f cs) := by
  rw [nodesOfList_mapAttrsList]
  exact List.mem_map_of_mem (mapAttrs f) hd

/-- The `has_fill` flag of `create_tray_body`: a fill attribute that is
present and not `"none"`, or no fill attribute at all. -/
def isFilled (a : List (String × String)) : Bool :=
  match getAttr a "fill" with
  | some v => v != "none"
  | none => true

/-- The fill step of `create_tray_body`: `elem.set('fill', color)` when the
element counts as filled. -/
def setFillIfFilled (color : String) (a : List (String × String)) :
    List (String × String) :=
  if isFilled a then setAttr a "fill" color else a

/-- The stroke step of `create_tray_body`: `elem.set('stroke', color)` when a
stroke attribute is present, whatever its value. -/
def setStrokeIfPresent (color : String) (a : List (String × String)) :
    List (String × String) :=
  if (getAttr a "stroke").isSome then setAttr a "stroke" color else a

/-- The per-element attribute rewrite of `create_tray_body`: fill step, then
stroke step, exactly as in the loop body of the source. -/
def colorizeAttrs (color : String) (a : List (String × String)) :
    List (String × String) :=
  setStrokeIfPresent color (setFillIfFilled color a)

/-- `create_tray_body`: the canonical root's children are detached, each
child and every one of its descendants is recolored as a solid silhouette,
and the children are re-appended inside a fresh group element. -/
def create_tray_body_group (color : String) (rootChildren : List Element) :
    Element :=
  .mk "g" [] (mapAttrsList (colorizeAttrs color) rootChildren)

theorem getAttr_setStrokeIfPresent_ne (color : String)
    (a : List (String × String)) (k : String) (hk : k ≠ "stroke") :
    getAttr (setStrokeIfPresent color a) k = getAttr a k := by
  unfold setStrokeIfPresent
  by_cases hs : (getAttr a "stroke").isSome
  · simp [hs, getAttr_setAttr_ne _ _ _ _ hk]
  · simp [hs]

theorem colorizeAttrs_fill_of_filled (color : String)
    (a : List (String × String)) (hf : isFilled a = true) :
    getAttr (colorizeAttrs color a) "fill" = some color := by
  unfold colorizeAttrs setFillIfFilled
  rw [hf, if_pos rfl, getAttr_setStrokeIfPresent_ne _ _ _ (by decide),
    getAttr_setAttr_self]

theorem colorizeAttrs_stroke (color : String) (a : List (String × String))
    (v : String) (hs : getAttr a "stroke" = some v) :
    getAttr (colorizeAttrs color a) "stroke" = some color := by
  unfold colorizeAttrs setStrokeIfPresent
  have hs' : getAttr (setFillIfFilled color a) "stroke" = some v := by
    unfold setFillIfFilled
    by_cases hf : isFilled a
    · simp [hf, getAttr_setAttr_ne a "fill" color "stroke" (by decide), hs]
    · simp [hf, hs]
  simp [hs', getAttr_setAttr_self]

/-- C1: silhouette recolor in `create_tray_body`. Every top-level child of
the root and every descendant of such a child is rewritten by the same rule:
an element with a non-none fill attribute, or with no fill attribute, gets
`fill` set to the target color; an element with `fill="none"` keeps
`fill="none"`; and any present `stroke` attribute is overwritten with the
target color. The rewritten element is a node of the group built by
`create_tray_body`. -/
theorem create_tray_body_silhouette (color : String) (cs : List Element)
    (d : Element) (hd : d ∈ nodesOfList cs) :
    mapAttrs (colorizeAttrs color) d ∈
      nodesOfList (create_tray_body_group color cs).children ∧
    (getAttr d.attrib "fill" = none →
      getAttr (mapAttrs (colorizeAttrs color) d).attrib "fill" = some color) ∧
    (∀ v, getAttr d.attrib "fill" = some v → v ≠ "none" →
      getAttr (mapAttrs (colorizeAttrs color) d).attrib "fill" = some color) ∧
    (getAttr d.attrib "fill" = some "none" →
      getAttr (mapAttrs (colorizeAttrs color) d).attrib "fill" = some "none") ∧
    (∀ v, getAttr d.attrib "stroke" = some v →
      getAttr (mapAttrs (colorizeAttrs color) d).attrib "stroke" = some color) := by
  refine ⟨?_, ?_, ?_, ?_, ?_⟩
  · simpa [create_tray_body_group, Element.children] using
      mem_nodesOfList_mapAttrsList (colorizeAttrs color) cs d hd
  · intro h
    rw [attrib_mapAttrs]
    exact colorizeAttrs_fill_of_filled color d.attrib (by simp [isFilled, h])
  · intro v hv hvn
    rw [attrib_mapAttrs]
    exact colorizeAttrs_fill_of_filled color d.attrib (by simp [isFilled, hv, hvn])
  · intro h
    rw [attrib_mapAttrs]
    unfold colorizeAttrs setFillIfFilled
    rw [show isFilled d.attrib = false by simp [isFilled, h], if_neg (by simp),
      getAttr_setStrokeIfPresent_ne _ _ _ (by decide), h]
  · intro v hv
    rw [attrib_mapAttrs]
    exact colorizeAttrs_stroke color d.attrib v hv

/-- Witness for C1 at a concrete input: a `path` child with only a stroke
attribute has its stroke overwritten with the silhouette color. -/
theorem create_tray_body_silhouette_witness :
    getAttr (mapAttrs (colorizeAttrs "white")
      (Element.mk "path" [("stroke", "red")] [])).attrib "stroke" =
      some "white" := by
  have h := create_tray_body_silhouette "white"
    [Element.mk "path" [("stroke", "red")] []]
    (Element.mk "path" [("stroke", "red")] [])
    (by simp [nodesOfList, Element.allNodes])
  exact h.2.2.2.2 "red" (by simp [Element.attrib, getAttr])

/-- Python `str.upper()`: uppercase every character of the string. -/
def upperStr (s : String) : String := String.mk (s.data.map Char.toUpper)

/-- The per-element rewrite of `create_app_icon`: a fill attribute whose
uppercased value equals `#6AD7E5` is replaced with `#00ADD8`; every other
element is left untouched. -/
def recolorFill (a : List (String × String)) : List (String × String) :=
  match getAttr a "fill" with
  | some v => if upperStr v == "#6AD7E5" then setAttr a "fill" "#00ADD8" else a
  | none => a

theorem getAttr_recolorFill_ne (a : List (String × String)) (k : String)
    (hk : k ≠ "fill") : getAttr (recolorFill a) k = getAttr a k := by
  unfold recolorFill
  cases hf : getAttr a "fill" with
  | none => rfl
  | some v =>
    by_cases hv : upperStr v = "#6AD7E5"
    · simp [hv, getAttr_setAttr_ne a "fill" "#00ADD8" k hk]
    · simp [hv]

/-- C4: app-icon recolor in `create_app_icon`. For every element of the
document, a fill attribute equal (after uppercasing, i.e. case-insensitively)
to `#6AD7E5` becomes `#00ADD8`; any other fill value leaves the element's
attributes entirely unchanged, an element without a fill attribute is
unchanged, and every attribute other than fill is untouched on every
element. The rewritten element is a node of the rewritten document. -/
theorem create_app_icon_recolor (e d : Element) (hd : d ∈ e.allNodes) :
    mapAttrs recolorFill d ∈ (mapAttrs recolorFill e).allNodes ∧
    (∀ v, getAttr d.attrib "fill" = some v → upperStr v = "#6AD7E5" →
      getAttr (mapAttrs recolorFill d).attrib "fill" = some "#00ADD8") ∧
    (∀ v, getAttr d.attrib "fill" = some v → upperStr v ≠ "#6AD7E5" →
      (mapAttrs recolorFill d).attrib = d.attrib) ∧
    (getAttr d.attrib "fill" = none →
      (mapAttrs recolorFill d).attrib = d.attrib) ∧
    (∀ k, k ≠ "fill" →
      getAttr (mapAttrs recolorFill d).attrib k = getAttr d.attrib k) := by
  refine ⟨?_, ?_, ?_, ?_, ?_⟩
  · rw [allNodes_mapAttrs]
    exact List.mem_map_of_mem (mapAttrs recolorFill) hd
  · intro v hv hup
    rw [attrib_mapAttrs]
    unfold recolorFill
    simp [hv, hup, getAttr_setAttr_self]
  · intro v hv hup
    rw [attrib_mapAttrs]
    unfold recolorFill
    simp [hv, hup]
  · intro hv
    rw [attrib_mapAttrs]
    unfold recolorFill
    simp [hv]
  · intro k hk
    rw [attrib_mapAttrs]
    exact getAttr_recolorFill_ne d.attrib k hk

/-- Witness for C4 at a concrete input: a lowercase `#6ad7e5` fill inside a
document is rewritten to `#00ADD8`, and an unrelated attribute is kept. -/
theorem create_app_icon_recolor_witness :
    getAttr (mapAttrs recolorFill
      (Element.mk "path" [("d", "M0 0"), ("fill", "#6ad7e5")] [])).attrib
      "fill" = some "#00ADD8" ∧
    getAttr (mapAttrs recolorFill
      (Element.mk "path" [("d", "M0 0"), ("fill", "#6ad7e5")] [])).attrib
      "d" = some "M0 0" := by
  have h := create_app_icon_recolor
    (Element.mk "svg" []
      [Element.mk "path" [("d", "M0 0"), ("fill", "#6ad7e5")] []])
    (Element.mk "path" [("d", "M0 0"), ("fill", "#6ad7e5")] [])
    (by simp [Element.allNodes, nodesOfList])
  refine ⟨h.2.1 "#6ad7e5" (by simp [Element.attrib, getAttr]) (by decide), ?_⟩
  rw [h.2.2.2.2 "d" (by decide)]
  simp [Element.attrib, getAttr]

/-- The root produced by `make_square`, with the numeric attribute values it
writes: the new `viewBox` quadruple, the `width` and `height` attributes, the
`translate(dx, dy)` transform of the single wrapping group, and the children
moved into that group. -/
structure SquareRoot where
  vbMinX : ℚ
  vbMinY : ℚ
  vbW : ℚ
  vbH : ℚ
  width : ℚ
  height : ℚ
  dx : ℚ
  dy : ℚ
  groupChildren : List Element
deriving Repr

/-- `make_square`: from the parsed `viewBox` `(x, y, w, h)` of the root and
its children, build a new square root of side `max w h`, with `viewBox`
`0 0 side side`, `width` and `height` equal to the side, and all original
children appended into one group translated by
`((side - w) / 2, (side - h) / 2)`. -/
def make_square (x y w h : ℚ) (children : List Element) : SquareRoot :=
  let target_dim := max w h
  { vbMinX := 0
    vbMinY := 0
    vbW := target_dim
    vbH := target_dim
    width := target_dim
    height := target_dim
    dx := (target_dim - w) / 2
    dy := (target_dim - h) / 2
    groupChildren := children }

/-- C2: canvas squaring. The new `viewBox`, `width` and `height` all denote
the side `max w h`; all original children are wrapped (in order) in the
single translated group; the offsets center the artwork, i.e. pad the short
axis equally on both sides; the behaviour is symmetric in which axis was
shorter (swapping the axes swaps the offsets); and on the concrete viewBox
`(0, 0, 400, 600)` the side is `600` and the offset is `(100, 0)`. -/
theorem make_square_squares_canvas (x y w h : ℚ) (cs : List Element) :
    ((make_square x y w h cs).vbW = max w h ∧
     (make_square x y w h cs).vbH = max w h ∧
     (make_square x y w h cs).width = max w h ∧
     (make_square x y w h cs).height = max w h) ∧
    (make_square x y w h cs).groupChildren = cs ∧
    ((make_square x y w h cs).dx + w + (make_square x y w h cs).dx =
        (make_square x y w h cs).width ∧
     (make_square x y w h cs).dy + h + (make_square x y w h cs).dy =
        (make_square x y w h cs).height) ∧
    ((make_square x y h w cs).dy = (make_square x y w h cs).dx ∧
     (make_square x y h w cs).dx = (make_square x y w h cs).dy) ∧
    ((make_square 0 0 400 600 cs).width = 600 ∧
     (make_square 0 0 400 600 cs).dx = 100 ∧
     (make_square 0 0 400 600 cs).dy = 0) := by
  refine ⟨⟨rfl, rfl, rfl, rfl⟩, rfl, ⟨by simp [make_square]; ring,
    by simp [make_square]; ring⟩, ⟨by simp [make_square, max_comm],
    by simp [make_square, max_comm]⟩, by norm_num [make_square],
    by norm_num [make_square], by norm_num [make_square]⟩

/-- C6: squaring an already-square canvas. When the `viewBox` width and
height agree, `make_square` keeps the dimensions and the wrapping group
carries a zero translation on both axes. -/
theorem make_square_already_square (x y w : ℚ) (cs : List Element) :
    (make_square x y w w cs).width = w ∧
    (make_square x y w w cs).height = w ∧
    (make_square x y w w cs).vbW = w ∧
    (make_square x y w w cs).vbH = w ∧
    (make_square x y w w cs).dx = 0 ∧
    (make_square x y w w cs).dy = 0 := by
  simp [make_square]

/-- C9: the original `viewBox` origin is discarded. The output of
`make_square` does not depend on the parsed min-x/min-y at all (its new
`viewBox` starts at the origin and its translation uses only `w` and `h`,
with the children uncompensated), and consequently the original artwork's
center lands on the center of the new square canvas exactly when the
original origin was `(0, 0)`. -/
theorem make_square_discards_origin (x y w h : ℚ) (cs : List Element) :
    (make_square x y w h cs).vbMinX = 0 ∧
    (make_square x y w h cs).vbMinY = 0 ∧
    make_square x y w h cs = make_square 0 0 w h cs ∧
    (make_square x y w h cs).groupChildren = cs ∧
    ((x + w / 2 + (make_square x y w h cs).dx =
        (make_square x y w h cs).width / 2 ∧
      y + h / 2 + (make_square x y w h cs).dy =
        (make_square x y w h cs).height / 2) ↔ (x = 0 ∧ y = 0)) := by
  refine ⟨rfl, rfl, rfl, rfl, ?_⟩
  constructor
  · rintro ⟨hx, hy⟩
    constructor
    · have : x + w / 2 + (max w h - w) / 2 = max w h / 2 ↔ x = 0 := by
        constructor <;> intro hh <;> linarith
      exact this.mp (by simpa [make_square] using hx)
    · have : y + h / 2 + (max w h - h) / 2 = max w h / 2 ↔ y = 0 := by
        constructor <;> intro hh <;> linarith
      exact this.mp (by simpa [make_square] using hy)
  · rintro ⟨hx, hy⟩
    subst hx; subst hy
    constructor <;> simp [make_square] <;> ring

/-- One generated pad: an SVG `rect` with its numeric geometry attributes
and its fill color. -/
structure Rect where
  x : ℚ
  y : ℚ
  width : ℚ
  height : ℚ
  rx : ℚ
  ry : ℚ
  fill : String
deriving Repr, DecidableEq

/-- The group element `create_pads` returns: id `midi-pads` holding the
generated rectangles in order. -/
structure PadsGroup where
  id : String
  rects : List Rect
deriving Repr, DecidableEq

/-- `create_pads`: the fixed 2x2 pad grid. Size 85, gap 14, start position
`(109, 260)` (the source computes 109 as the rounded center 201 minus half
the total width 184), four rounded rects of corner radius 10, all filled
with the given color. -/
def create_pads (color : String) : PadsGroup :=
  let size : ℚ := 85
  let gap : ℚ := 14
  let start_x : ℚ := 109
  let start_y : ℚ := 260
  let pads_coords : List (ℚ × ℚ) :=
    [(start_x, start_y), (start_x + size + gap, start_y),
     (start_x, start_y + size + gap), (start_x + size + gap, start_y + size + gap)]
  { id := "midi-pads"
    rects := pads_coords.map fun p =>
      { x := p.1, y := p.2, width := size, height := size,
        rx := 10, ry := 10, fill := color } }

/-- C3: pad synthesis. For every color, `create_pads` returns exactly the
four 85x85 rounded rects (`rx = ry = 10`) at `(109, 260)`, `(208, 260)`,
`(109, 359)`, `(208, 359)`, each filled with that color — stated as a full
evaluation of the result, so two calls with the same color yield this same
value (the function is pure and deterministic by construction). -/
theorem create_pads_shape (color : String) :
    (create_pads color).rects.length = 4 ∧
    create_pads color =
      { id := "midi-pads"
        rects := [⟨109, 260, 85, 85, 10, 10, color⟩,
                  ⟨208, 260, 85, 85, 10, 10, color⟩,
                  ⟨109, 359, 85, 85, 10, 10, color⟩,
                  ⟨208, 359, 85, 85, 10, 10, color⟩] } := by
  constructor
  · rfl
  · simp [create_pads]
    norm_num

/-- C5, counterexample: the first pad's x-coordinate is not the exact
centering value `200.99 - 92 = 108.99` claimed by the PadSpec formula over
the reference width `401.98`. -/
theorem create_pads_x_not_spec_formula :
    ¬ ((create_pads "#333333").rects.map Rect.x =
        [(10899 : ℚ) / 100, 10899 / 100 + 99, 10899 / 100, 10899 / 100 + 99]) := by
  intro h
  have h0 : (create_pads "#333333").rects.map Rect.x =
      [(109 : ℚ), 208, 109, 208] := by
    simp [create_pads]
    norm_num
  rw [h0] at h
  have : (109 : ℚ) = 10899 / 100 := by
    have := congrArg (fun l => l.headI) h
    simpa using this
  norm_num at this

/-- C5, amended: the pad layout satisfies the centering formula with the
source's rounded center 201 (not `401.98 / 2 = 200.99`): with size 85 and
gap 14, `start_x = 201 - (2 * 85 + 14) / 2 = 109`, `start_y = 260`, and the
four pads sit at the four offsets of the PadSpec grid. -/
theorem create_pads_layout_formula (color : String) :
    (create_pads color).rects.map (fun r => (r.x, r.y)) =
      [((201 : ℚ) - (2 * 85 + 14) / 2, 260),
       (201 - (2 * 85 + 14) / 2 + 85 + 14, 260),
       (201 - (2 * 85 + 14) / 2, 260 + 85 + 14),
       (201 - (2 * 85 + 14) / 2 + 85 + 14, 260 + 85 + 14)] := by
  simp [create_pads]
  norm_num

/-- Outcome of one `subprocess.run(args, check=True)` invocation of the
external `magick` tool: normal exit, `CalledProcessError` on a nonzero exit
status, or `FileNotFoundError` when the executable is absent. -/
inductive ProcResult where
  | success
  | calledProcessError (code : Int)
  | fileNotFound
deriving Repr, DecidableEq

/-- `render_svg`: invoke `magick -background none svg png`. A
`CalledProcessError` is caught and logged with the offending svg path; a
successful run logs the rendered png; any other exception (the executable
missing) propagates as an error. The result is the list of printed lines, or
the uncaught exception. -/
def render_svg (run : List String → ProcResult) (svg_path png_path : String) :
    Except String (List String) :=
  match run ["magick", "-background", "none", svg_path, png_path] with
  | .success => .ok ["Rendered " ++ png_path]
  | .calledProcessError c =>
      .ok ["Error rendering " ++ svg_path ++ ": " ++ toString c]
  | .fileNotFound => .error "FileNotFoundError: magick"

/-- `composite_tray_icon`: invoke `magick body pads -compose DstOut
-composite output`. Same soft-failure handling as `render_svg`, logging the
offending output path on a `CalledProcessError`. -/
def composite_tray_icon (run : List String → ProcResult)
    (body_png pads_png output_png : String) : Except String (List String) :=
  match run ["magick", body_png, pads_png, "-compose", "DstOut",
      "-composite", output_png] with
  | .success => .ok ["Composited " ++ output_png]
  | .calledProcessError c =>
      .ok ["Error compositing " ++ output_png ++ ": " ++ toString c]
  | .fileNotFound => .error "FileNotFoundError: magick"

/-- The rasterize-and-composite tail of the `__main__` pipeline: the four
`render_svg` calls followed by the two `composite_tray_icon` calls, in
program order, accumulating the printed lines; an uncaught exception in any
stage aborts the remainder. -/
def raster_stages (run : List String → ProcResult) :
    Except String (List String) := do
  let l1 ← render_svg run "app_icon.svg" "../../assets/app_icon.png"
  let l2 ← render_svg run "tray_body.svg" "tray_body.png"
  let l3 ← render_svg run "tray_body_black.svg" "tray_body_black.png"
  let l4 ← render_svg run "tray_pads.svg" "tray_pads.png"
  let l5 ← composite_tray_icon run "tray_body.png" "tray_pads.png"
    "../../assets/tray_icon.png"
  let l6 ← composite_tray_icon run "tray_body_black.png" "tray_pads.png"
    "../../assets/tray_icon_black.png"
  pure (l1 ++ l2 ++ l3 ++ l4 ++ l5 ++ l6)

theorem render_svg_ok (run : List String → ProcResult) (s p : String)
    (h : run ["magick", "-background", "none", s, p] ≠ .fileNotFound) :
    ∃ m, render_svg run s p = .ok [m] := by
  unfold render_svg
  cases hr : run ["magick", "-background", "none", s, p] with
  | success => exact ⟨_, rfl⟩
  | calledProcessError c => exact ⟨_, rfl⟩
  | fileNotFound => exact absurd hr h

theorem composite_tray_icon_ok (run : List String → ProcResult)
    (b p o : String)
    (h : run ["magick", b, p, "-compose", "DstOut", "-composite", o] ≠
      .fileNotFound) :
    ∃ m, composite_tray_icon run b p o = .ok [m] := by
  unfold composite_tray_icon
  cases hr : run ["magick", b, p, "-compose", "DstOut", "-composite", o] with
  | success => exact ⟨_, rfl⟩
  | calledProcessError c => exact ⟨_, rfl⟩
  | fileNotFound => exact absurd hr h

/-- C7: soft-failure isolation. As long as the external tool is present (no
invocation raises `FileNotFoundError`), a nonzero exit of a rasterize or
composite subprocess is caught and logged with the offending path, and the
whole rasterize/composite tail of the run completes with exactly one printed
line per stage — no stage aborts the ones after it. -/
theorem soft_failure_isolation (run : List String → ProcResult)
    (h : ∀ args, run args ≠ ProcResult.fileNotFound) :
    (∀ svg png c, run ["magick", "-background", "none", svg, png] =
        .calledProcessError c →
      render_svg run svg png =
        .ok ["Error rendering " ++ svg ++ ": " ++ toString c]) ∧
    (∀ body pads out c, run ["magick", body, pads, "-compose", "DstOut",
        "-composite", out] = .calledProcessError c →
      composite_tray_icon run body pads out =
        .ok ["Error compositing " ++ out ++ ": " ++ toString c]) ∧
    ∃ logs, raster_stages run = .ok logs ∧ logs.length = 6 := by
  refine ⟨?_, ?_, ?_⟩
  · intro svg png c hc
    unfold render_svg
    rw [hc]
  · intro body pads out c hc
    unfold composite_tray_icon
    rw [hc]
  · obtain ⟨m1, h1⟩ := render_svg_ok run "app_icon.svg"
      "../../assets/app_icon.png" (h _)
    obtain ⟨m2, h2⟩ := render_svg_ok run "tray_body.svg" "tray_body.png" (h _)
    obtain ⟨m3, h3⟩ := render_svg_ok run "tray_body_black.svg"
      "tray_body_black.png" (h _)
    obtain ⟨m4, h4⟩ := render_svg_ok run "tray_pads.svg" "tray_pads.png" (h _)
    obtain ⟨m5, h5⟩ := composite_tray_icon_ok run "tray_body.png"
      "tray_pads.png" "../../assets/tray_icon.png" (h _)
    obtain ⟨m6, h6⟩ := composite_tray_icon_ok run "tray_body_black.png"
      "tray_pads.png" "../../assets/tray_icon_black.png" (h _)
    refine ⟨[m1, m2, m3, m4, m5, m6], ?_, rfl⟩
    simp only [raster_stages, h1, h2, h3, h4, h5, h6]
    rfl

/-- Witness for C7: with an external tool that always exits nonzero, the
failed render is logged with its svg path and all six stages still run. -/
theorem soft_failure_isolation_witness :
    render_svg (fun _ => ProcResult.calledProcessError 1) "tray_body.svg"
      "tray_body.png" =
      .ok ["Error rendering " ++ "tray_body.svg" ++ ": " ++ toString (1 : Int)] ∧
    ∃ logs, raster_stages (fun _ => ProcResult.calledProcessError 1) =
      .ok logs ∧ logs.length = 6 := by
  have h := soft_failure_isolation (fun _ => ProcResult.calledProcessError 1)
    (fun args => by simp)
  exact ⟨h.1 "tray_body.svg" "tray_body.png" 1 rfl, h.2.2⟩

/-- C10: only `CalledProcessError` is caught. `render_svg` and
`composite_tray_icon` end in an uncaught exception exactly when the
invocation of the external tool raises `FileNotFoundError` (the executable
is absent); and when the very first render's invocation does so, the whole
rasterize/composite tail aborts with that error. -/
theorem only_called_process_error_caught (run : List String → ProcResult)
    (svg png body pads out : String) :
    (render_svg run svg png = .error "FileNotFoundError: magick" ↔
      run ["magick", "-background", "none", svg, png] = .fileNotFound) ∧
    (composite_tray_icon run body pads out =
        .error "FileNotFoundError: magick" ↔
      run ["magick", body, pads, "-compose", "DstOut", "-composite", out] =
        .fileNotFound) ∧
    (run ["magick", "-background", "none", "app_icon.svg",
        "../../assets/app_icon.png"] = .fileNotFound →
      raster_stages run = .error "FileNotFoundError: magick") := by
  refine ⟨?_, ?_, ?_⟩
  · unfold render_svg
    cases hr : run ["magick", "-background", "none", svg, png] <;> simp
  · unfold composite_tray_icon
    cases hr : run ["magick", body, pads, "-compose", "DstOut", "-composite",
      out] <;> simp
  · intro hfnf
    have : render_svg run "app_icon.svg" "../../assets/app_icon.png" =
        .error "FileNotFoundError: magick" := by
      unfold render_svg
      rw [hfnf]
    simp only [raster_stages, this]
    rfl

/-- Witness for C10: when the external tool is absent everywhere, the
pipeline tail aborts with the uncaught `FileNotFoundError`. -/
theorem only_called_process_error_caught_witness :
    raster_stages (fun _ => ProcResult.fileNotFound) =
      .error "FileNotFoundError: magick" :=
  (only_called_process_error_caught (fun _ => ProcResult.fileNotFound)
    "a" "b" "c" "d" "e").2.2 rfl

/-- `os.remove` on a filesystem modelled as the list of existing paths:
deletes the path if present, raises `FileNotFoundError` otherwise. -/
def os_remove (fs : List String) (f : String) : Except String (List String) :=
  if f ∈ fs then .ok (fs.filter fun g => g != f)
  else .error ("FileNotFoundError: " ++ f)

/-- `cleanup_temp_files`: for each listed path, if it exists (`os.path.exists`)
remove it and log the removal; paths that do not exist are skipped. Returns
the remaining filesystem and the printed log lines, or an uncaught
exception. -/
def cleanup_temp_files : List String → List String →
    Except String (List String × List String)
  | [], fs => .ok (fs, [])
  | f :: rest, fs =>
    if f ∈ fs then
      match os_remove fs f with
      | .error e => .error e
      | .ok fs2 =>
        match cleanup_temp_files rest fs2 with
        | .error e => .error e
        | .ok (fs3, log) => .ok (fs3, ("Removed temp file " ++ f) :: log)
    else cleanup_temp_files rest fs

/-- C8: cleanup safety. On any filesystem, `cleanup_temp_files` never raises
(it returns normally even when listed paths do not exist), every listed path
that exists is deleted and logged, and exactly the existing files not on the
list survive — so a nonexistent path in the list never prevents the deletion
of the paths that do exist. -/
theorem cleanup_temp_files_safe (files fs : List String) :
    ∃ fs2 log, cleanup_temp_files files fs = .ok (fs2, log) ∧
      (∀ g, g ∈ fs2 ↔ (g ∈ fs ∧ g ∉ files)) ∧
      (∀ f, f ∈ files → f ∈ fs → ("Removed temp file " ++ f) ∈ log) := by
  induction files generalizing fs with
  | nil =>
    exact ⟨fs, [], rfl, fun g => by simp, fun f hf => absurd hf (by simp)⟩
  | cons f0 rest ih =>
    by_cases h0 : f0 ∈ fs
    · obtain ⟨fs3, log, hrun, hmem, hlog⟩ := ih (fs.filter fun g => g != f0)
      refine ⟨fs3, ("Removed temp file " ++ f0) :: log, ?_, ?_, ?_⟩
      · simp only [cleanup_temp_files, h0, if_pos, os_remove, if_pos h0, hrun]
      · intro g
        rw [hmem g]
        simp only [List.mem_filter, bne_iff_ne, List.mem_cons]
        constructor
        · rintro ⟨⟨hg, hgne⟩, hgrest⟩
          exact ⟨hg, fun hc => hc.elim hgne hgrest⟩
        · rintro ⟨hg, hgni⟩
          exact ⟨⟨hg, fun hc => hgni (Or.inl hc)⟩,
            fun hc => hgni (Or.inr hc)⟩
      · intro f hf hffs
        rcases List.mem_cons.mp hf with hf0 | hfrest
        · subst hf0
          exact List.mem_cons_self _ _
        · by_cases hfe : f = f0
          · subst hfe
            exact List.mem_cons_self _ _
          · exact List.mem_cons_of_mem _
              (hlog f hfrest (List.mem_filter.mpr ⟨hffs, by simpa using hfe⟩))
    · obtain ⟨fs3, log, hrun, hmem, hlog⟩ := ih fs
      refine ⟨fs3, log, ?_, ?_, ?_⟩
      · simp only [cleanup_temp_files, h0, if_neg, if_false, hrun]
      · intro g
        rw [hmem g]
        simp only [List.mem_cons]
        constructor
        · rintro ⟨hg, hgrest⟩
          refine ⟨hg, fun hc => ?_⟩
          rcases hc with hc | hc
          · exact h0 (hc ▸ hg)
          · exact hgrest hc
        · rintro ⟨hg, hgni⟩
          exact ⟨hg, fun hc => hgni (Or.inr hc)⟩
      · intro f hf hffs
        rcases List.mem_cons.mp hf with hf0 | hfrest
        · exact absurd (hf0 ▸ hffs) h0
        · exact hlog f hfrest hffs

/-- Witness for C8: cleaning the list `["a", "b"]` on a filesystem holding
only `b` and `c` (so `a` does not exist) returns normally, deletes `b`,
logs its removal, and keeps `c`. -/
theorem cleanup_temp_files_safe_witness :
    ∃ fs2 log, cleanup_temp_files ["a", "b"] ["b", "c"] = .ok (fs2, log) ∧
      ("Removed temp file " ++ "b") ∈ log ∧
      "b" ∉ fs2 ∧ "c" ∈ fs2 := by
  obtain ⟨fs2, log, hrun, hmem, hlog⟩ :=
    cleanup_temp_files_safe ["a", "b"] ["b", "c"]
  refine ⟨fs2, log, hrun, hlog "b" (by simp) (by simp), ?_, ?_⟩
  · rw [hmem "b"]
    simp
  · rw [hmem "c"]
    simp

end ProcessIcons
